import Mathlib

/-!
Verification of the MCP tool-server connection manager
(`src/server/src/services/mcpService.ts`) of the smart-assistant repository.

The definitions below are a shallow embedding of the TypeScript source:
JavaScript objects used as string-keyed maps become association lists (or
lookup functions for process environments), the `Map` class becomes an
association list with `setA`/`eraseA`/`lookupA` mirroring `set`/`delete`/`get`,
machine integers become `Nat`, thrown exceptions become explicit error values,
and the observable side effects of each operation (spawning a process, writing
to a pipe, settling a promise) are returned as explicit traces so that
properties such as "performs no transport I/O" can be stated.
-/

namespace MCP

/-! ## Association-list helpers (embedding of JS `Map` and plain objects) -/

/-- Lookup by key, first match wins (JS `Map.get` on a map with unique keys). -/
def lookupA {α : Type} (k : String) : List (String × α) → Option α
  | [] => none
  | (k', v) :: rest => if k = k' then some v else lookupA k rest

/-- Insert or overwrite a key (JS `Map.set`). -/
def setA {α : Type} (k : String) (v : α) : List (String × α) → List (String × α)
  | [] => [(k, v)]
  | (k', v') :: rest => if k' = k then (k, v) :: rest else (k', v') :: setA k v rest

/-- Remove a key (JS `Map.delete`). -/
def eraseA {α : Type} (k : String) : List (String × α) → List (String × α)
  | [] => []
  | (k', v) :: rest => if k' = k then rest else (k', v) :: eraseA k rest

theorem lookupA_setA {α : Type} (k k' : String) (v : α) (l : List (String × α)) :
    lookupA k (setA k' v l) = if k = k' then some v else lookupA k l := by
  induction l with
  | nil => simp [setA, lookupA]
  | cons p rest ih =>
    obtain ⟨a, b⟩ := p
    by_cases hak : a = k'
    · subst hak
      by_cases hk : k = a <;> simp [setA, lookupA, hk]
    · by_cases hk : k = a
      · subst hk
        simp [setA, lookupA, hak, Ne.symm hak]
      · simp [setA, lookupA, hak, hk, ih]

/-! ## JavaScript-truthiness helpers -/

/-- Value of the JS expression `v || d` for an optional string `v`:
falls back to `d` when `v` is `undefined` or the empty string. -/
def jsOr (v : Option String) (d : String) : String :=
  match v with
  | some s => if s = "" then d else s
  | none => d

/-- Truthiness of an optional JS string (`undefined` and `""` are falsy). -/
def truthyStr : Option String → Bool
  | none => false
  | some s => s ≠ ""

/-! ## Frame codec

The stdio `responseHandler` in `sendMessage` (mcpService.ts lines 375-439)
accumulates raw chunks in `responseBuffer`, splits the buffer on `'\n'`,
processes every line except the last (which may still be incomplete), trims
each line, skips empty lines, parses the rest as JSON and drops lines that
fail to parse, then keeps only the trailing incomplete line in the buffer.
Bytes are modelled as `Nat` character codes; the newline delimiter is 10;
the JSON parser is an arbitrary function `parse` since only parse success or
failure per complete line is observable to the codec. -/

/-- Prepend one character to a (complete-lines, trailing-remainder) split:
a newline closes off a new (initially empty) first line, any other character
extends the first complete line if one exists, otherwise the remainder. -/
def consLine (c : Nat) (p : List (List Nat) × List Nat) : List (List Nat) × List Nat :=
  if c = 10 then ([] :: p.1, p.2)
  else
    match p.1 with
    | [] => ([], c :: p.2)
    | l :: ls => ((c :: l) :: ls, p.2)

/-- Split a byte sequence into the list of complete (newline-terminated) lines
and the trailing not-yet-terminated remainder, exactly as
`responseBuffer.split('\n')` with the last fragment retained in the buffer. -/
def splitLines : List Nat → List (List Nat) × List Nat
  | [] => ([], [])
  | c :: rest => consLine c (splitLines rest)

/-- Whitespace recognizer for the JS `String.trim` on protocol lines. -/
def isWs (c : Nat) : Bool :=
  c = 32 || c = 9 || c = 10 || c = 13 || c = 11 || c = 12

/-- Embedding of `line.trim()`. -/
def trimLine (l : List Nat) : List Nat :=
  ((l.dropWhile isWs).reverse.dropWhile isWs).reverse

/-- Per-line processing of the response handler: trim, skip empty lines,
attempt a JSON parse, drop the line on parse failure. -/
def processLine {α : Type} (parse : List Nat → Option α) (l : List Nat) : Option α :=
  let t := trimLine l
  if t.length = 0 then none else parse t

/-- One `feed` of the codec: prepend the buffered remainder, extract all
complete lines as frames, keep the trailing incomplete line as the new
buffer. -/
def codecFeed {α : Type} (parse : List Nat → Option α) (buf data : List Nat) :
    List α × List Nat :=
  ((splitLines (buf ++ data)).1.filterMap (processLine parse),
   (splitLines (buf ++ data)).2)

/-- Feed a sequence of chunks through the codec, threading the buffer and
concatenating the extracted frames. -/
def codecFeedAll {α : Type} (parse : List Nat → Option α) :
    List Nat → List (List Nat) → List α × List Nat
  | buf, [] => ([], buf)
  | buf, c :: cs =>
    ((codecFeed parse buf c).1 ++ (codecFeedAll parse (codecFeed parse buf c).2 cs).1,
     (codecFeedAll parse (codecFeed parse buf c).2 cs).2)

theorem splitLines_append (xs ys : List Nat) :
    splitLines (xs ++ ys) =
      ((splitLines xs).1 ++ (splitLines ((splitLines xs).2 ++ ys)).1,
       (splitLines ((splitLines xs).2 ++ ys)).2) := by
  induction xs with
  | nil => simp [splitLines]
  | cons c rest ih =>
    have hL : splitLines (c :: (rest ++ ys)) = consLine c (splitLines (rest ++ ys)) := rfl
    have hR : splitLines (c :: rest) = consLine c (splitLines rest) := rfl
    rw [List.cons_append, hL, hR, ih]
    rcases hA : splitLines rest with ⟨A, r⟩
    by_cases hc : c = 10
    · subst hc
      simp [consLine]
    · rcases A with _ | ⟨a, A'⟩
      · rcases hB : splitLines (r ++ ys) with ⟨B1, B2⟩
        have hcr : splitLines (c :: (r ++ ys)) = consLine c (splitLines (r ++ ys)) := rfl
        cases B1 <;> simp [consLine, hc, hB, hcr]
      · simp [consLine, hc]

/-- Composing two feeds of the codec equals one feed of the concatenated
input. -/
theorem codecFeed_comp {α : Type} (parse : List Nat → Option α) (buf d1 d2 : List Nat) :
    ((codecFeed parse buf d1).1 ++
       (codecFeed parse (codecFeed parse buf d1).2 d2).1,
     (codecFeed parse (codecFeed parse buf d1).2 d2).2) =
      codecFeed parse buf (d1 ++ d2) := by
  simp only [codecFeed]
  rw [← List.append_assoc, splitLines_append (buf ++ d1) d2]
  simp [List.filterMap_append]

/-- A byte list without newline splits into no complete line and itself as
remainder. -/
theorem splitLines_no_newline (l : List Nat) (h : ∀ c ∈ l, c ≠ 10) :
    splitLines l = ([], l) := by
  induction l with
  | nil => rfl
  | cons c rest ih =>
    have hc : c ≠ 10 := h c (by simp)
    have hrest := ih (fun x hx => h x (by simp [hx]))
    show consLine c (splitLines rest) = ([], c :: rest)
    rw [hrest]
    simp [consLine, hc]

/-- The remainder returned by the line splitter never contains a newline. -/
theorem splitLines_snd_no_newline (l : List Nat) :
    ∀ c ∈ (splitLines l).2, c ≠ 10 := by
  induction l with
  | nil => intro c hc; simp [splitLines] at hc
  | cons a rest ih =>
    intro c hc
    by_cases ha : a = 10
    · subst ha
      have : (splitLines (10 :: rest)).2 = (splitLines rest).2 := by
        show (consLine 10 (splitLines rest)).2 = _
        simp [consLine]
      rw [this] at hc
      exact ih c hc
    · rcases hA : (splitLines rest).1 with _ | ⟨x, xs⟩
      · have : (splitLines (a :: rest)).2 = a :: (splitLines rest).2 := by
          show (consLine a (splitLines rest)).2 = _
          simp [consLine, ha, hA]
        rw [this] at hc
        rcases List.mem_cons.mp hc with h | h
        · subst h; exact ha
        · exact ih c h
      · have : (splitLines (a :: rest)).2 = (splitLines rest).2 := by
          show (consLine a (splitLines rest)).2 = _
          simp [consLine, ha, hA]
        rw [this] at hc
        exact ih c hc

theorem codecFeedAll_eq_codecFeed {α : Type} (parse : List Nat → Option α)
    (cs : List (List Nat)) :
    ∀ buf, (∀ c ∈ buf, c ≠ 10) →
      codecFeedAll parse buf cs = codecFeed parse buf cs.flatten := by
  induction cs with
  | nil =>
    intro buf hbuf
    simp [codecFeedAll, codecFeed, splitLines_no_newline buf hbuf]
  | cons c cs ih =>
    intro buf _
    have hbuf2 : ∀ x ∈ (codecFeed parse buf c).2, x ≠ 10 := by
      intro x hx
      exact splitLines_snd_no_newline (buf ++ c) x hx
    show ((codecFeed parse buf c).1 ++
            (codecFeedAll parse (codecFeed parse buf c).2 cs).1,
          (codecFeedAll parse (codecFeed parse buf c).2 cs).2) = _
    rw [ih (codecFeed parse buf c).2 hbuf2]
    rw [codecFeed_comp]
    rfl

/-- C3: for every byte sequence and every partition of it into chunks, the
frames extracted by the buffering frame decoder (trailing incomplete bytes
carried across chunks, unparseable lines dropped) equal the frames obtained
from feeding the whole sequence as a single chunk, and the final buffered
remainders agree as well. -/
theorem frame_codec_chunk_invariance {α : Type} (parse : List Nat → Option α)
    (chunks : List (List Nat)) :
    codecFeedAll parse [] chunks = codecFeed parse [] chunks.flatten :=
  codecFeedAll_eq_codecFeed parse chunks [] (by intro c hc; simp at hc)

/-! ## Data model

Embeddings of the `MCPTool`, `MCPServer` and `MCPToolCall` records from
`src/server/src/types/index.ts`, restricted to the fields the connection
manager reads. Tool input schemas are JSON blobs; only their object shape
(declared property names and required list) is observable to this code. -/

inductive Status
  | disconnected
  | connecting
  | connected
  | error
deriving DecidableEq, Repr

structure InputSchema where
  type : String
  propNames : List String
  required : List String
deriving DecidableEq, Repr

/-- Schema literal `\x7btype: 'object', properties: \x7b\x7d, required: []\x7d`
used for placeholder and default tool schemas. -/
def emptyObjectSchema : InputSchema :=
  { type := "object", propNames := [], required := [] }

structure MCPTool where
  name : String
  description : String
  inputSchema : InputSchema
deriving DecidableEq, Repr

structure MCPServer where
  id : String
  name : String
  url : String
  transport : String
  command : Option String
  args : List String
  env : List (String × String)
  status : Status
  tools : List MCPTool
  resources : List String
  disabled : Bool
deriving DecidableEq, Repr

structure MCPToolCall where
  id : String
  name : String
  arguments : List (String × String)
deriving DecidableEq, Repr

/-- Transport connection handle stored in the `connections` map: a spawned
child process (with the availability of its stdin pipe recorded, since
`sendMessage` checks `connection.stdin`) or a WebSocket. -/
inductive Conn
  | child (pid : Nat) (stdinAvailable : Bool)
  | ws
deriving DecidableEq, Repr

/-- One registered response handler plus its timeout timer, created by
`sendMessage` for each outgoing request: the stdout data listener keyed by the
awaited message id, with its start time and the absolute deadline at which the
scheduled timer fires. -/
structure PendingCall where
  serverId : String
  msgId : Nat
  startTime : Nat
  deadline : Nat
deriving DecidableEq, Repr

/-- Mutable state of the `MCPService` instance: the `servers` map, the
`connections` map, and the set of currently attached response handlers with
their timers. -/
structure ServiceState where
  servers : List (String × MCPServer)
  connections : List (String × Conn)
  pendingCalls : List PendingCall
deriving DecidableEq, Repr

/-- Observable transport side effects of the service operations. -/
inductive IOAction
  | spawnProc (cmd : String) (args : List String)
  | wsOpen (url : String)
  | stdinWrite (serverId : String) (msgId : Nat)
  | wsSend (serverId : String) (msgId : Nat)
  | killProc (serverId : String)
  | wsClose (serverId : String)
deriving DecidableEq, Repr

/-- Outcome delivered to a pending call when it settles. -/
inductive CallOutcome
  | responseFrame (msgId : Nat)
  | timeoutErr (serverId : String)
deriving DecidableEq, Repr

/-- Error values corresponding to the exceptions thrown by `executeTool` and
`sendMessage`. -/
inductive MCPError
  | serverNotConnected (serverId : String)
  | toolNotFound (toolName serverId : String)
  | noConnectionFound (serverId : String)
  | stdinNotAvailable
deriving DecidableEq, Repr

/-! ## Configuration loading (`loadServersFromConfig` / `parseServerConfig`) -/

/-- Raw per-server entry of the configuration document, with every field
optional as in the untyped `config: any` the source reads. -/
structure RawServerConfig where
  id : Option String
  name : Option String
  url : Option String
  transport : Option String
  command : Option String
  args : Option (List String)
  env : Option (List (String × String))
  tools : Option (List MCPTool)
  resources : Option (List String)
  disabled : Option Bool
deriving DecidableEq, Repr

/-- Configuration document: Claude Desktop format (an `mcpServers` mapping) or
a bare array of entries. -/
inductive MCPConfig
  | mcpServers (entries : List (String × RawServerConfig))
  | arrayFormat (entries : List RawServerConfig)
deriving DecidableEq, Repr

/-- Placeholder tool fabricated for a command-bearing entry without a static
tool list. -/
def placeholderTool (id name : String) : MCPTool :=
  { name := id ++ "_tool"
    description := "Tool from " ++ name
    inputSchema := emptyObjectSchema }

/-- Embedding of `parseServerConfig` (mcpService.ts lines 73-110): defaults
for missing fields, then a single placeholder tool when no tools are declared
and a command is present. -/
def parseServerConfig (id : String) (config : RawServerConfig) : Option MCPServer :=
  let base : MCPServer :=
    { id := id
      name := jsOr config.name id
      url := jsOr config.url ("stdio://" ++ id)
      transport := jsOr config.transport "stdio"
      command := config.command
      args := config.args.getD []
      env := config.env.getD []
      status := .disconnected
      tools := config.tools.getD []
      resources := config.resources.getD []
      disabled := config.disabled.getD false }
  if base.tools.length = 0 ∧ truthyStr base.command then
    some { base with tools := [placeholderTool id base.name] }
  else
    some base

/-- Derive the server records from a configuration document, exactly as the
two branches of `loadServersFromConfig` (lines 39-60) do. -/
def derivedServers (config : MCPConfig) : List MCPServer :=
  match config with
  | .mcpServers entries =>
    entries.filterMap (fun e => parseServerConfig e.1 e.2)
  | .arrayFormat entries =>
    entries.enum.filterMap
      (fun e => parseServerConfig (jsOr e.2.id ("server-" ++ toString e.1)) e.2)

/-- Write a batch of server records into the `servers` map with `Map.set`. -/
def setServers (table : List (String × MCPServer)) (ss : List MCPServer) :
    List (String × MCPServer) :=
  ss.foldl (fun t s => setA s.id s t) table

/-- Built-in example servers installed by `initializeExampleServers`
(lines 112-178). -/
def filesystemServer : MCPServer :=
  { id := "filesystem"
    name := "File System Tools"
    url := "stdio://filesystem"
    transport := "stdio"
    command := none
    args := []
    env := []
    status := .disconnected
    tools :=
      [ { name := "read_file"
          description := "Read the contents of a file"
          inputSchema := { type := "object", propNames := ["path"], required := ["path"] } },
        { name := "write_file"
          description := "Write content to a file"
          inputSchema :=
            { type := "object", propNames := ["path", "content"],
              required := ["path", "content"] } } ]
    resources := []
    disabled := false }

def webSearchServer : MCPServer :=
  { id := "web-search"
    name := "Web Search Tools"
    url := "stdio://web-search"
    transport := "stdio"
    command := none
    args := []
    env := []
    status := .disconnected
    tools :=
      [ { name := "search_web"
          description := "Search the web for information"
          inputSchema :=
            { type := "object", propNames := ["query", "limit"], required := ["query"] } } ]
    resources := []
    disabled := false }

def exampleServers : List MCPServer := [filesystemServer, webSearchServer]

/-- Embedding of `initializeExampleServers`: sets the example servers into the
`servers` map. -/
def initializeExampleServers (st : ServiceState) : ServiceState :=
  { st with servers := setServers st.servers exampleServers }

/-- Embedding of `loadServersFromConfig` (lines 39-71): derive server records,
fall back to the example servers when none were derived, otherwise `Map.set`
each derived record into the existing `servers` map (the map is never
cleared). -/
def loadServersFromConfig (st : ServiceState) (config : MCPConfig) : ServiceState :=
  if (derivedServers config).length = 0 then initializeExampleServers st
  else { st with servers := setServers st.servers (derivedServers config) }

/-- Embedding of `updateConfig` (lines 835-853): the document is assumed to
have parsed (a parse failure throws before any state change), persisting it to
the file store has no effect on the in-memory state, then
`loadServersFromConfig` reloads the table. -/
def updateConfig (st : ServiceState) (config : MCPConfig) : ServiceState :=
  loadServersFromConfig st config

/-! ## Connection lifecycle (`connectToServer` and the transport connectors) -/

/-- Status-field assignment on a server record. -/
def updStatus (status : Status) (srv : MCPServer) : MCPServer :=
  { srv with status := status }

/-- Update the status field of the named server in the `servers` map (the
source mutates the looked-up server object in place). -/
def setServerStatus (st : ServiceState) (serverId : String) (status : Status) :
    ServiceState :=
  { st with
    servers :=
      st.servers.map (fun p =>
        if p.1 = serverId then (p.1, updStatus status p.2) else p) }

/-- Result of the race between the child process `spawn` and `error` events
(respectively the WebSocket `open` and `error` events), supplied as an
explicit parameter of the connect step. -/
inductive SpawnOutcome
  | ok (pid : Nat)
  | err
deriving DecidableEq, Repr

/-- Embedding of `connectStdioServer` (lines 204-266). Without a truthy
command the session is marked connected and the promise resolves true with no
process spawned and no connection registered. With a command the process is
spawned; on the `spawn` event the session is marked connected and the child
registered in `connections`; on the `error` event the session is marked
`error` and the promise resolves false. -/
def connectStdioServer (st : ServiceState) (server : MCPServer)
    (outcome : SpawnOutcome) : ServiceState × Bool × List IOAction :=
  if ¬ truthyStr server.command then
    (setServerStatus st server.id .connected, true, [])
  else
    match outcome with
    | .ok pid =>
      let st1 := setServerStatus st server.id .connected
      ({ st1 with connections := setA server.id (.child pid true) st1.connections },
       true, [.spawnProc (server.command.getD "") server.args])
    | .err =>
      (setServerStatus st server.id .error, false,
       [.spawnProc (server.command.getD "") server.args])

/-- Embedding of `connectWebSocketServer` (lines 268-296): open the socket;
`open` marks the session connected and registers the handle, `error` marks it
`error` and resolves false. -/
def connectWebSocketServer (st : ServiceState) (server : MCPServer)
    (outcome : SpawnOutcome) : ServiceState × Bool × List IOAction :=
  match outcome with
  | .ok _ =>
    let st1 := setServerStatus st server.id .connected
    ({ st1 with connections := setA server.id .ws st1.connections },
     true, [.wsOpen server.url])
  | .err =>
    (setServerStatus st server.id .error, false, [.wsOpen server.url])

/-- Embedding of `connectToServer` (lines 180-202): throws when the server id
is unknown; dispatches on the transport; for an unsupported transport the
thrown error is caught, the session is marked `error` and false is returned;
`connectSSEServer` just returns false. No check of the current session status
is performed anywhere on this path. -/
def connectToServer (st : ServiceState) (serverId : String)
    (outcome : SpawnOutcome) : Except String (ServiceState × Bool × List IOAction) :=
  match lookupA serverId st.servers with
  | none => .error ("Server " ++ serverId ++ " not found")
  | some server =>
    if server.transport = "stdio" then
      .ok (connectStdioServer st server outcome)
    else if server.transport = "websocket" then
      .ok (connectWebSocketServer st server outcome)
    else if server.transport = "sse" then
      .ok (st, false, [])
    else
      .ok (setServerStatus st serverId .error, false, [])

/-! ## Outgoing requests (`executeTool`, `sendMessage`, handshake ids) -/

/-- Parameter payloads of the outgoing JSON-RPC requests this service
builds. -/
inductive RequestParams
  | toolsCall (name : String) (arguments : List (String × String))
  | initializeParams (protocolVersion clientName clientVersion : String)
  | noParams
deriving DecidableEq, Repr

structure JsonRpcRequest where
  id : Nat
  method : String
  params : RequestParams
deriving DecidableEq, Repr

/-- Request built by `executeTool` (lines 320-329): the id is `Date.now()`,
the clock milliseconds at send time, passed here as `now`. -/
def buildToolCallMessage (now : Nat) (tc : MCPToolCall) : JsonRpcRequest :=
  { id := now, method := "tools/call", params := .toolsCall tc.name tc.arguments }

/-- Handshake request of `initializeServerConnection` step 1 (fixed id 1). -/
def initializeRequest : JsonRpcRequest :=
  { id := 1, method := "initialize"
    params := .initializeParams "2024-11-05" "webchat-ui" "1.0.0" }

/-- Discovery request of `initializeServerConnection` step 3 (fixed id 2). -/
def toolsListRequest : JsonRpcRequest :=
  { id := 2, method := "tools/list", params := .noParams }

/-- Resource discovery request of step 5 (fixed id 3). -/
def resourcesListRequest : JsonRpcRequest :=
  { id := 3, method := "resources/list", params := .noParams }

/-- Timeout configured in `sendMessage` for both transports. -/
def timeoutMs : Nat := 120000

/-- Result of an operation that may throw: the state afterwards, the transport
actions actually performed, and the thrown error if any. -/
structure OpResult where
  state : ServiceState
  actions : List IOAction
  errorOut : Option MCPError
deriving DecidableEq, Repr

/-- Embedding of `sendMessage` (lines 347-516) up to the registration of the
response handler and its timeout timer: without a connection it throws; for a
child process it requires stdin, writes the serialized message and attaches a
response handler whose timer is scheduled `timeoutMs` after `now`; for a
WebSocket it sends and attaches the analogous handler. -/
def sendMessage (st : ServiceState) (serverId : String) (msg : JsonRpcRequest)
    (now : Nat) : OpResult :=
  match lookupA serverId st.connections with
  | none => ⟨st, [], some (.noConnectionFound serverId)⟩
  | some (.child _ stdinAvailable) =>
    if stdinAvailable then
      ⟨{ st with
          pendingCalls :=
            st.pendingCalls ++ [⟨serverId, msg.id, now, now + timeoutMs⟩] },
       [.stdinWrite serverId msg.id], none⟩
    else
      ⟨st, [], some .stdinNotAvailable⟩
  | some .ws =>
    ⟨{ st with
        pendingCalls :=
          st.pendingCalls ++ [⟨serverId, msg.id, now, now + timeoutMs⟩] },
     [.wsSend serverId msg.id], none⟩

/-- Embedding of `executeTool` (lines 304-345): requires the server to exist
with status connected, requires the named tool in the server's tool list, then
builds the `tools/call` request and delegates to `sendMessage`. -/
def executeTool (st : ServiceState) (serverId : String) (tc : MCPToolCall)
    (now : Nat) : OpResult :=
  match lookupA serverId st.servers with
  | none => ⟨st, [], some (.serverNotConnected serverId)⟩
  | some server =>
    if server.status ≠ Status.connected then
      ⟨st, [], some (.serverNotConnected serverId)⟩
    else
      match server.tools.find? (fun t => t.name = tc.name) with
      | none => ⟨st, [], some (.toolNotFound tc.name serverId)⟩
      | some _ => sendMessage st serverId (buildToolCallMessage now tc) now

/-! ## Disconnect and timeout firing -/

/-- Result of `disconnectServer`: the state afterwards, the transport actions,
and the pending calls it settled (with their outcomes). -/
structure DisconnectResult where
  state : ServiceState
  actions : List IOAction
  settled : List (Nat × CallOutcome)
deriving DecidableEq, Repr

/-- Embedding of `disconnectServer` (lines 537-553): kill or close the
connection if one is registered and remove it from the map, then force the
server status to disconnected. Nothing on this path touches the attached
response handlers, their timers, or their promises. -/
def disconnectServer (st : ServiceState) (serverId : String) : DisconnectResult :=
  let step :=
    match lookupA serverId st.connections with
    | some (.child _ _) =>
      ({ st with connections := eraseA serverId st.connections },
       [IOAction.killProc serverId])
    | some .ws =>
      ({ st with connections := eraseA serverId st.connections },
       [IOAction.wsClose serverId])
    | none => (st, [])
  let st2 :=
    match lookupA serverId step.1.servers with
    | some _ => setServerStatus step.1 serverId .disconnected
    | none => step.1
  ⟨st2, step.2, []⟩

/-- Embedding of the `setTimeout` callback registered by `sendMessage`
(lines 445-454): when the timer of a pending call fires, the response handler
is detached and the promise is rejected with the timeout error. -/
def fireTimeout (st : ServiceState) (c : PendingCall) :
    ServiceState × List (Nat × CallOutcome) :=
  ({ st with pendingCalls := st.pendingCalls.erase c },
   [(c.msgId, .timeoutErr c.serverId)])

/-! ## Child process environment (`connectStdioServer` lines 220-232) -/

def defaultPATH : String := "/usr/local/bin:/usr/bin:/bin:/usr/sbin:/sbin"

def defaultSHELL : String := "/bin/zsh"

/-- Host facts read through `require('os')`. -/
structure HostInfo where
  homedir : String
  username : String
deriving DecidableEq, Repr

/-- JS object spread: the right operand's keys win. Environments are modelled
as lookup functions from variable name to optional value. -/
def spreadEnv (a b : String → Option String) : String → Option String :=
  fun k =>
    match b k with
    | some v => some v
    | none => a k

/-- Later key in an object literal overwriting any earlier spread-in value. -/
def setEnvKey (k v : String) (e : String → Option String) : String → Option String :=
  fun q => if q = k then some v else e q

/-- Embedding of the `mergedEnv` object literal: spread the host environment,
then the configured server environment, then re-assign PATH, SHELL, HOME and
USER from the host environment with platform defaults as fallbacks. -/
def mergedEnv (hostEnv serverEnv : String → Option String) (host : HostInfo) :
    String → Option String :=
  setEnvKey "USER" (jsOr (hostEnv "USER") host.username)
    (setEnvKey "HOME" (jsOr (hostEnv "HOME") host.homedir)
      (setEnvKey "SHELL" (jsOr (hostEnv "SHELL") defaultSHELL)
        (setEnvKey "PATH" (jsOr (hostEnv "PATH") defaultPATH)
          (spreadEnv hostEnv serverEnv))))

/-! ## Tool listing and discovery -/

/-- Embedding of `getAvailableTools` (lines 522-535): concatenate the tool
lists of every currently connected server. -/
def getAvailableTools (st : ServiceState) : List MCPTool :=
  st.servers.foldl
    (fun acc p => if p.2.status = Status.connected then acc ++ p.2.tools else acc) []

/-- Wire shape of one tool in a `tools/list` response. -/
structure DiscoveredTool where
  name : String
  description : Option String
  inputSchema : Option InputSchema
deriving DecidableEq, Repr

/-- Per-tool normalization in `initializeServerConnection` step 4. -/
def parseDiscoveredTool (serverName : String) (t : DiscoveredTool) : MCPTool :=
  { name := t.name
    description := jsOr t.description ("Tool " ++ t.name ++ " from " ++ serverName)
    inputSchema := t.inputSchema.getD emptyObjectSchema }

/-- Embedding of `initializeServerConnection` step 4 (lines 706-732): when the
discovery response carries a tools array, the server's tool list is replaced
wholesale by the normalized discovered tools; otherwise the existing tools are
kept. -/
def applyDiscoveredTools (server : MCPServer) (tools : Option (List DiscoveredTool)) :
    MCPServer :=
  match tools with
  | some ts => { server with tools := ts.map (parseDiscoveredTool server.name) }
  | none => server

/-- Whether `sendMessage` can reach the handler-registration step on this
connection handle (a child process needs its stdin pipe). -/
def connSendable : Conn → Bool
  | .child _ stdinAvailable => stdinAvailable
  | .ws => true

/-! ## Concrete fixtures used by witnesses and counterexamples -/

/-- A connected stdio provider with a configured command. -/
def serverA : MCPServer :=
  { id := "a", name := "A", url := "stdio://a", transport := "stdio",
    command := some "cmd", args := [], env := [], status := .connected,
    tools := [], resources := [], disabled := false }

/-- Session for `serverA` with one outstanding pending call. -/
def stPendingFixture : ServiceState :=
  { servers := [("a", serverA)]
    connections := [("a", .child 1 true)]
    pendingCalls := [⟨"a", 42, 0, 120000⟩] }

/-- Session for `serverA` already connected, with a live connection handle. -/
def stConnectedFixture : ServiceState :=
  { servers := [("a", serverA)]
    connections := [("a", .child 1 true)]
    pendingCalls := [] }

/-- A provider currently connected under id `old`. -/
def oldServer : MCPServer :=
  { id := "old", name := "Old", url := "stdio://old", transport := "stdio",
    command := some "oldcmd", args := [], env := [], status := .connected,
    tools := [], resources := [], disabled := false }

/-- State with only the `old` provider, connected with a live handle. -/
def stOld : ServiceState :=
  { servers := [("old", oldServer)]
    connections := [("old", .child 3 true)]
    pendingCalls := [] }

/-- Raw config entry declaring just a command. -/
def rawCommandOnly (cmd : String) : RawServerConfig :=
  ⟨none, none, none, none, some cmd, none, none, none, none, none⟩

/-- New configuration document that does not mention provider `old`. -/
def cfgNew : MCPConfig := .mcpServers [("new", rawCommandOnly "newcmd")]

/-- New configuration document that re-declares provider `old`. -/
def cfgBoth : MCPConfig := .mcpServers [("old", rawCommandOnly "oldcmd2")]

/-- Host environment exposing only PATH. -/
def hostEnvFixture : String → Option String :=
  fun k => if k = "PATH" then some "/hostbin" else none

/-- Configured provider environment that tries to override PATH. -/
def serverEnvFixture : String → Option String :=
  fun k => if k = "PATH" then some "/custombin" else none

def hostInfoFixture : HostInfo := ⟨"/home/user", "user"⟩

/-- Config entry with a command and no static tools. -/
def cfg9 : RawServerConfig := rawCommandOnly "npx"

/-- The record `parseServerConfig "fs" cfg9` produces. -/
def server9 : MCPServer :=
  { id := "fs", name := "fs", url := "stdio://fs", transport := "stdio",
    command := some "npx", args := [], env := [], status := .disconnected,
    tools := [placeholderTool "fs" "fs"], resources := [], disabled := false }

/-- State in which `server9` is connected. -/
def st9 : ServiceState :=
  ⟨[("fs", { server9 with status := .connected })], [], []⟩

/-- State holding exactly the built-in example servers, no connections. -/
def stExamples : ServiceState := initializeExampleServers ⟨[], [], []⟩

/-! ## General lemmas about the state operations -/

theorem lookupA_mem {α : Type} (k : String) (l : List (String × α)) (v : α)
    (h : lookupA k l = some v) : (k, v) ∈ l := by
  induction l with
  | nil => simp [lookupA] at h
  | cons p rest ih =>
    obtain ⟨a, b⟩ := p
    by_cases hk : k = a
    · subst hk
      simp [lookupA] at h
      simp [h]
    · simp [lookupA, hk] at h
      simp [ih h]

theorem lookupA_mapUpdate (sid : String) (s : Status) (l : List (String × MCPServer))
    (k : String) :
    lookupA k (l.map (fun p => if p.1 = sid then (p.1, updStatus s p.2) else p)) =
      if k = sid then (lookupA k l).map (updStatus s) else lookupA k l := by
  induction l with
  | nil => by_cases hk : k = sid <;> simp [lookupA, hk]
  | cons p rest ih =>
    obtain ⟨a, b⟩ := p
    simp only [List.map_cons]
    by_cases ha : a = sid
    · rw [show (if (a, b).1 = sid then ((a, b).1, updStatus s (a, b).2) else (a, b)) =
          (a, updStatus s b) from by simp [ha]]
      subst ha
      by_cases hk : k = a
      · subst hk
        simp [lookupA]
      · simp [lookupA, hk, ih]
    · rw [show (if (a, b).1 = sid then ((a, b).1, updStatus s (a, b).2) else (a, b)) =
          (a, b) from by simp [ha]]
      by_cases hk : k = a
      · subst hk
        simp [lookupA, ha]
      · simp [lookupA, hk, ih]

theorem lookupA_setServerStatus (st : ServiceState) (sid : String) (s : Status)
    (k : String) :
    lookupA k (setServerStatus st sid s).servers =
      if k = sid then (lookupA k st.servers).map (updStatus s)
      else lookupA k st.servers :=
  lookupA_mapUpdate sid s st.servers k

theorem setServerStatus_connections (st : ServiceState) (sid : String) (s : Status) :
    (setServerStatus st sid s).connections = st.connections := rfl

theorem setServerStatus_pendingCalls (st : ServiceState) (sid : String) (s : Status) :
    (setServerStatus st sid s).pendingCalls = st.pendingCalls := rfl

theorem erase_append_singleton {α : Type} [DecidableEq α] (l : List α) (a : α)
    (h : a ∉ l) : (l ++ [a]).erase a = l := by
  induction l with
  | nil => simp
  | cons x l ih =>
    have hx : ¬(x == a) = true := by
      simp only [beq_iff_eq]
      intro hxa
      exact h (by simp [hxa])
    have hl : a ∉ l := fun hm => h (by simp [hm])
    simp [List.erase_cons, hx, ih hl]

/-- Disconnect never settles a pending call and never detaches a response
handler: the pending-call set passes through unchanged. -/
theorem disconnectServer_pendingCalls (st : ServiceState) (serverId : String) :
    (disconnectServer st serverId).state.pendingCalls = st.pendingCalls ∧
    (disconnectServer st serverId).settled = [] := by
  unfold disconnectServer
  rcases hconn : lookupA serverId st.connections with _ | conn
  · rcases hs : lookupA serverId st.servers with _ | s <;>
      simp [hconn, hs, setServerStatus]
  · cases conn <;>
      rcases hs : lookupA serverId st.servers with _ | s <;>
        simp [hconn, hs, setServerStatus]

/-! ## C1 — disconnect versus pending calls

Claim: disconnecting a provider with outstanding pending calls causes each of
them to resolve immediately with an error rather than waiting for the
120-second timeout. In the source, `disconnectServer` (lines 537-553) only
kills/closes the transport, deletes the connection handle and sets the status;
nothing rejects the promises of in-flight `sendMessage` calls, whose response
handlers and 120-second timers stay in place until each timer fires. -/

/-- C1 counterexample: in a session with one outstanding pending call,
`disconnectServer` settles no call at all and leaves the pending call
registered exactly as it was, so the call does not resolve immediately with an
error; it can only settle when its own 120-second timer fires. -/
theorem disconnect_pending_counterexample :
    (disconnectServer stPendingFixture "a").settled = [] ∧
    (disconnectServer stPendingFixture "a").state.pendingCalls =
      [⟨"a", 42, 0, 120000⟩] := by
  constructor <;> rfl

/-- C1 amended: invoking disconnect on a provider with outstanding pending
calls settles none of them and leaves every pending call registered; each
outstanding call remains until its own timer fires, at which point it is
rejected with the timeout error and its handler is removed. -/
theorem disconnect_leaves_pending_calls (st : ServiceState) (serverId : String)
    (c : PendingCall) (hc : c ∈ st.pendingCalls) :
    (disconnectServer st serverId).settled = [] ∧
    (disconnectServer st serverId).state.pendingCalls = st.pendingCalls ∧
    c ∈ (disconnectServer st serverId).state.pendingCalls ∧
    (fireTimeout (disconnectServer st serverId).state c).2 =
      [(c.msgId, .timeoutErr c.serverId)] := by
  obtain ⟨hp, hs⟩ := disconnectServer_pendingCalls st serverId
  exact ⟨hs, hp, by rw [hp]; exact hc, rfl⟩

theorem disconnect_leaves_pending_calls_witness :
    (disconnectServer stPendingFixture "a").settled = [] ∧
    (disconnectServer stPendingFixture "a").state.pendingCalls =
      stPendingFixture.pendingCalls ∧
    (⟨"a", 42, 0, 120000⟩ : PendingCall) ∈
      (disconnectServer stPendingFixture "a").state.pendingCalls ∧
    (fireTimeout (disconnectServer stPendingFixture "a").state
        ⟨"a", 42, 0, 120000⟩).2 = [(42, .timeoutErr "a")] :=
  disconnect_leaves_pending_calls stPendingFixture "a" ⟨"a", 42, 0, 120000⟩
    (by simp [stPendingFixture])

/-! ## C2 — re-entrant connect

Claim: calling connect while the session status is not `disconnected` is a
no-op returning the current status without opening a new transport. In the
source, `connectToServer` (lines 180-202) never consults `server.status`:
whenever the provider has a command it spawns a fresh process and
`connectStdioServer` overwrites the registered connection handle. -/

/-- C2 counterexample: with provider `a` already `connected` and holding a
live connection handle, a re-entrant `connectToServer` is not a no-op: it
spawns a second process (a non-empty transport-opening action trace) and
replaces the registered connection handle. -/
theorem reentrant_connect_counterexample :
    connectToServer stConnectedFixture "a" (.ok 2) =
      .ok ({ servers := [("a", serverA)]
             connections := [("a", .child 2 true)]
             pendingCalls := [] },
           true, [.spawnProc "cmd" []]) ∧
    ([IOAction.spawnProc "cmd" []] ≠ ([] : List IOAction)) := by
  constructor
  · rfl
  · simp

/-- C2 amended: `connectToServer` performs no status check: for every state,
whenever the named provider exists with stdio transport and a truthy command
(whatever its current status, including `connecting` and `connected`), connect
opens a new transport — it emits exactly one spawn of the configured command —
and on spawn success replaces the registered connection handle with the fresh
child process. -/
theorem connect_always_spawns (st : ServiceState) (serverId : String)
    (server : MCPServer) (outcome : SpawnOutcome)
    (hs : lookupA serverId st.servers = some server)
    (ht : server.transport = "stdio")
    (hcmd : truthyStr server.command = true) :
    connectToServer st serverId outcome = .ok (connectStdioServer st server outcome) ∧
    (connectStdioServer st server outcome).2.2 =
      [.spawnProc (server.command.getD "") server.args] ∧
    (∀ pid, outcome = .ok pid →
      lookupA server.id (connectStdioServer st server outcome).1.connections =
        some (.child pid true)) := by
  refine ⟨by simp [connectToServer, hs, ht], ?_, ?_⟩
  · cases outcome <;> simp [connectStdioServer, hcmd]
  · intro pid hpid
    subst hpid
    simp [connectStdioServer, hcmd, setServerStatus_connections, lookupA_setA]

/-! ## C4 — request id allocation

Claim: request ids are monotonic per session and never reused while a request
bearing the id is outstanding, so two concurrent tool-execution requests on
one session always carry distinct ids. In the source, `executeTool` sets
`id: Date.now()` (line 323): two requests built in the same clock millisecond
carry the same id, and the handshake requests reuse the fixed ids 1, 2, 3 on
every (re)initialization. -/

/-- C4 counterexample: two distinct tool calls dispatched concurrently in the
same clock millisecond (here millisecond 999) are assigned the very same
request id, refuting the claim that concurrent requests on one session always
carry distinct ids. -/
theorem request_id_collision_counterexample :
    (buildToolCallMessage 999 ⟨"call-a", "tool_one", []⟩).id =
      (buildToolCallMessage 999 ⟨"call-b", "tool_two", []⟩).id ∧
    (⟨"call-a", "tool_one", []⟩ : MCPToolCall) ≠ ⟨"call-b", "tool_two", []⟩ := by
  constructor
  · rfl
  · decide

/-- C4 amended: the id of a tool-execution request equals the clock
millisecond at which it is built, so ids are nondecreasing as time advances
but are shared by requests issued within one millisecond; the handshake and
discovery requests carry the fixed ids 1, 2 and 3. No uniqueness holds among
outstanding calls. -/
theorem request_ids_clock_based (t1 t2 : Nat) (tc1 tc2 : MCPToolCall)
    (h : t1 ≤ t2) :
    (buildToolCallMessage t1 tc1).id ≤ (buildToolCallMessage t2 tc2).id ∧
    (buildToolCallMessage t1 tc1).id = t1 ∧
    initializeRequest.id = 1 ∧
    toolsListRequest.id = 2 ∧
    resourcesListRequest.id = 3 :=
  ⟨h, rfl, rfl, rfl, rfl⟩

theorem request_ids_clock_based_witness :
    (buildToolCallMessage 3 ⟨"c1", "t", []⟩).id ≤
      (buildToolCallMessage 5 ⟨"c2", "t", []⟩).id ∧
    (buildToolCallMessage 3 ⟨"c1", "t", []⟩).id = 3 ∧
    initializeRequest.id = 1 ∧
    toolsListRequest.id = 2 ∧
    resourcesListRequest.id = 3 :=
  request_ids_clock_based 3 5 ⟨"c1", "t", []⟩ ⟨"c2", "t", []⟩ (by decide)

/-! ## C5 — execute_tool guards fail before any I/O

Per `executeTool` (lines 304-313), the connected-status check and the
tool-presence check both throw before `sendMessage` is reached, so no message
is written to any transport. -/

/-- C5: executing a tool against a provider whose session is not `connected`
(including an unknown provider id), or naming a tool absent from the session's
tool list, fails with the not-found-class error thrown by the corresponding
guard (`Server ... is not connected` or `Tool ... not found`), performs no
transport I/O, and leaves the state unchanged. -/
theorem executeTool_guard_no_io (st : ServiceState) (serverId : String)
    (tc : MCPToolCall) (now : Nat)
    (h : ∀ server, lookupA serverId st.servers = some server →
      server.status ≠ Status.connected ∨ ∀ t ∈ server.tools, t.name ≠ tc.name) :
    (executeTool st serverId tc now).actions = [] ∧
    (executeTool st serverId tc now).state = st ∧
    ((executeTool st serverId tc now).errorOut =
        some (.serverNotConnected serverId) ∨
     (executeTool st serverId tc now).errorOut =
        some (.toolNotFound tc.name serverId)) := by
  unfold executeTool
  rcases hs : lookupA serverId st.servers with _ | server
  · exact ⟨rfl, rfl, Or.inl rfl⟩
  · rcases h server hs with hstat | htool
    · simp [hstat]
    · by_cases hstat : server.status = Status.connected
      · have hfind : server.tools.find? (fun t => t.name = tc.name) = none := by
          rw [List.find?_eq_none]
          intro t ht
          simp [htool t ht]
        simp [hstat, hfind]
      · simp [hstat]

theorem executeTool_guard_no_io_witness :
    (executeTool ⟨[("filesystem", filesystemServer)], [], []⟩ "filesystem"
        ⟨"call-1", "read_file", []⟩ 0).actions = [] ∧
    (executeTool ⟨[("filesystem", filesystemServer)], [], []⟩ "filesystem"
        ⟨"call-1", "read_file", []⟩ 0).state =
      ⟨[("filesystem", filesystemServer)], [], []⟩ ∧
    ((executeTool ⟨[("filesystem", filesystemServer)], [], []⟩ "filesystem"
        ⟨"call-1", "read_file", []⟩ 0).errorOut =
        some (.serverNotConnected "filesystem") ∨
     (executeTool ⟨[("filesystem", filesystemServer)], [], []⟩ "filesystem"
        ⟨"call-1", "read_file", []⟩ 0).errorOut =
        some (.toolNotFound "read_file" "filesystem")) :=
  executeTool_guard_no_io ⟨[("filesystem", filesystemServer)], [], []⟩ "filesystem"
    ⟨"call-1", "read_file", []⟩ 0
    (by
      intro server hs
      have : server = filesystemServer := by
        simpa [lookupA] using hs.symm
      subst this
      left
      decide)

/-! ## C6 — timeout deadline and cleanup

`sendMessage` (lines 443-454) schedules a single timer `timeoutMs = 120000`
milliseconds after the send; `setTimeout` fires no earlier than its delay, so
the rejection happens no earlier than the 120-second deadline. The timer
callback detaches the response handler before rejecting, leaving no trace of
the call. -/

/-- C6: a successfully sent request registers a pending call whose timer
deadline is exactly `startTime + 120000` milliseconds (so a call whose
response never arrives is rejected by that timer, which fires no earlier than
the 120-second deadline); when the timer fires, the call settles with the
timeout error and the registry retains no trace of it. -/
theorem call_timeout_cleanup (st : ServiceState) (serverId : String)
    (msg : JsonRpcRequest) (now : Nat) (conn : Conn)
    (hc : lookupA serverId st.connections = some conn)
    (hsend : connSendable conn = true)
    (hfresh : (⟨serverId, msg.id, now, now + timeoutMs⟩ : PendingCall) ∉
      st.pendingCalls) :
    timeoutMs = 120000 ∧
    (sendMessage st serverId msg now).errorOut = none ∧
    (sendMessage st serverId msg now).state.pendingCalls =
      st.pendingCalls ++ [⟨serverId, msg.id, now, now + timeoutMs⟩] ∧
    (fireTimeout (sendMessage st serverId msg now).state
        ⟨serverId, msg.id, now, now + timeoutMs⟩).2 =
      [(msg.id, .timeoutErr serverId)] ∧
    (fireTimeout (sendMessage st serverId msg now).state
        ⟨serverId, msg.id, now, now + timeoutMs⟩).1.pendingCalls =
      st.pendingCalls := by
  have hmsg : (sendMessage st serverId msg now).errorOut = none ∧
      (sendMessage st serverId msg now).state.pendingCalls =
        st.pendingCalls ++ [⟨serverId, msg.id, now, now + timeoutMs⟩] := by
    unfold sendMessage
    rw [hc]
    cases conn with
    | child pid stdinAvailable =>
      have : stdinAvailable = true := hsend
      subst this
      exact ⟨rfl, rfl⟩
    | ws => exact ⟨rfl, rfl⟩
  refine ⟨rfl, hmsg.1, hmsg.2, rfl, ?_⟩
  show ((sendMessage st serverId msg now).state.pendingCalls).erase _ = _
  rw [hmsg.2]
  exact erase_append_singleton _ _ hfresh

theorem call_timeout_cleanup_witness :
    timeoutMs = 120000 ∧
    (sendMessage ⟨[("a", serverA)], [("a", .child 5 true)], []⟩ "a"
        ⟨7, "tools/call", .noParams⟩ 1000).errorOut = none ∧
    (sendMessage ⟨[("a", serverA)], [("a", .child 5 true)], []⟩ "a"
        ⟨7, "tools/call", .noParams⟩ 1000).state.pendingCalls =
      [] ++ [⟨"a", 7, 1000, 1000 + timeoutMs⟩] ∧
    (fireTimeout (sendMessage ⟨[("a", serverA)], [("a", .child 5 true)], []⟩ "a"
        ⟨7, "tools/call", .noParams⟩ 1000).state
        ⟨"a", 7, 1000, 1000 + timeoutMs⟩).2 = [(7, .timeoutErr "a")] ∧
    (fireTimeout (sendMessage ⟨[("a", serverA)], [("a", .child 5 true)], []⟩ "a"
        ⟨7, "tools/call", .noParams⟩ 1000).state
        ⟨"a", 7, 1000, 1000 + timeoutMs⟩).1.pendingCalls = [] :=
  call_timeout_cleanup ⟨[("a", serverA)], [("a", .child 5 true)], []⟩ "a"
    ⟨7, "tools/call", .noParams⟩ 1000 (.child 5 true) (by rfl) (by rfl)
    (by simp)

theorem connect_always_spawns_witness :
    connectToServer stConnectedFixture "a" (.ok 2) =
      .ok (connectStdioServer stConnectedFixture serverA (.ok 2)) ∧
    (connectStdioServer stConnectedFixture serverA (.ok 2)).2.2 =
      [.spawnProc "cmd" []] ∧
    lookupA "a" (connectStdioServer stConnectedFixture serverA (.ok 2)).1.connections =
      some (.child 2 true) := by
  have h := connect_always_spawns stConnectedFixture "a" serverA (.ok 2)
    (by rfl) (by rfl) (by rfl)
  exact ⟨h.1, h.2.1, h.2.2 2 rfl⟩

/-! ## C7 — configuration reload

Claim: `update_configuration` replaces the provider table with the set
derived from the new document, so removed providers no longer appear, while
surviving providers keep their live connection and connected status. In the
source, `loadServersFromConfig` (lines 62-70) only `Map.set`s the derived
records into the existing `servers` map without clearing it, and
`parseServerConfig` creates every record with status `disconnected`, so
removed providers remain listed and re-declared providers lose their
`connected` status (their connection handles do stay registered and nothing
is forcibly disconnected). -/

theorem lookupA_setServers_isSome (ss : List MCPServer)
    (t : List (String × MCPServer)) (k : String) :
    (lookupA k (setServers t ss)).isSome ↔
      (lookupA k t).isSome ∨ k ∈ ss.map (fun s => s.id) := by
  induction ss generalizing t with
  | nil => simp [setServers]
  | cons s ss ih =>
    show (lookupA k (setServers (setA s.id s t) ss)).isSome ↔ _
    rw [ih, lookupA_setA]
    by_cases h : k = s.id <;> simp [h, or_assoc]

theorem parseServerConfig_status (id : String) (cfg : RawServerConfig)
    (s : MCPServer) (h : parseServerConfig id cfg = some s) :
    s.status = .disconnected := by
  simp only [parseServerConfig] at h
  split at h <;> (cases h; rfl)

theorem derivedServers_status (cfg : MCPConfig) :
    ∀ s ∈ derivedServers cfg, s.status = .disconnected := by
  intro s hs
  cases cfg with
  | mcpServers entries =>
    simp only [derivedServers, List.mem_filterMap] at hs
    obtain ⟨e, _, he⟩ := hs
    exact parseServerConfig_status _ _ _ he
  | arrayFormat entries =>
    simp only [derivedServers, List.mem_filterMap] at hs
    obtain ⟨e, _, he⟩ := hs
    exact parseServerConfig_status _ _ _ he

/-- C7 counterexample: starting from a table holding only provider `old`
(connected, with a live handle), reloading a document that does not mention
`old` leaves `old` in the table untouched (the claim requires it to no longer
appear in `list_servers`), and reloading a document that re-declares `old`
resets its status to `disconnected` (the claim requires the surviving provider
to keep its connected status). -/
theorem config_reload_counterexample :
    lookupA "old" (updateConfig stOld cfgNew).servers = some oldServer ∧
    (lookupA "old" (updateConfig stOld cfgBoth).servers).map (fun s => s.status) =
      some Status.disconnected := by
  constructor <;> rfl

/-- C7 amended: `update_configuration` merges the freshly-derived provider
records into the existing in-memory table by id instead of replacing it:
providers absent from the new document remain listed; every derived record is
created with status `disconnected` (so re-declared providers lose their
`connected` status even though their connection handle stays registered); the
connection table and pending calls are untouched, so nothing is forcibly
disconnected; when the new document yields no providers, the built-in example
providers are merged in instead. -/
theorem config_reload_merges_table (st : ServiceState) (cfg : MCPConfig) :
    (updateConfig st cfg).connections = st.connections ∧
    (updateConfig st cfg).pendingCalls = st.pendingCalls ∧
    (∀ id, (lookupA id (updateConfig st cfg).servers).isSome ↔
      ((lookupA id st.servers).isSome ∨
        id ∈ (if (derivedServers cfg).length = 0 then exampleServers
              else derivedServers cfg).map (fun s => s.id))) ∧
    (∀ s ∈ derivedServers cfg, s.status = Status.disconnected) := by
  refine ⟨?_, ?_, ?_, derivedServers_status cfg⟩
  · unfold updateConfig loadServersFromConfig
    split <;> rfl
  · unfold updateConfig loadServersFromConfig
    split <;> rfl
  · intro id
    unfold updateConfig loadServersFromConfig
    split
    next =>
      show (lookupA id (setServers st.servers exampleServers)).isSome ↔ _
      rw [lookupA_setServers_isSome]
    next =>
      show (lookupA id (setServers st.servers (derivedServers cfg))).isSome ↔ _
      rw [lookupA_setServers_isSome]

theorem config_reload_merges_table_witness :
    (updateConfig stOld cfgNew).connections = stOld.connections ∧
    ((lookupA "old" (updateConfig stOld cfgNew).servers).isSome ↔
      ((lookupA "old" stOld.servers).isSome ∨
        "old" ∈ (if (derivedServers cfgNew).length = 0 then exampleServers
                 else derivedServers cfgNew).map (fun s => s.id))) ∧
    ((derivedServers cfgNew).headD filesystemServer).status = Status.disconnected := by
  obtain ⟨h1, _, h3, h4⟩ := config_reload_merges_table stOld cfgNew
  exact ⟨h1, h3 "old", h4 _ (by decide)⟩

/-! ## C8 — child process environment

Claim: the spawn environment is the host environment overlaid with the
configured variables, configured values winning on conflicts, with platform
defaults for PATH/SHELL/HOME/USER only when absent from the host. In the
source's `mergedEnv` object literal (lines 221-232), the PATH/SHELL/HOME/USER
keys are written after the `...server.env` spread, so for those four keys the
host's value (or the platform default) always wins and the configured value is
ignored. -/

/-- C8 counterexample: with the host exposing `PATH=/hostbin` and the provider
configured with `PATH=/custombin`, the child receives `/hostbin` — the
configured value does not win the conflict as the claim requires. -/
theorem env_merge_counterexample :
    mergedEnv hostEnvFixture serverEnvFixture hostInfoFixture "PATH" =
      some "/hostbin" ∧
    mergedEnv hostEnvFixture serverEnvFixture hostInfoFixture "PATH" ≠
      serverEnvFixture "PATH" := by
  constructor
  · rfl
  · decide

/-- C8 amended: the spawn environment is the host environment overlaid with
the configured variables (configured values winning) for every key other than
PATH, SHELL, HOME and USER; those four keys always carry the host's own value
when it is truthy and a platform default otherwise, with any configured value
for them ignored. -/
theorem env_merge_overlay (hostEnv serverEnv : String → Option String)
    (host : HostInfo) (k : String)
    (h1 : k ≠ "PATH") (h2 : k ≠ "SHELL") (h3 : k ≠ "HOME") (h4 : k ≠ "USER") :
    mergedEnv hostEnv serverEnv host k =
      (match serverEnv k with
       | some v => some v
       | none => hostEnv k) ∧
    mergedEnv hostEnv serverEnv host "PATH" =
      some (jsOr (hostEnv "PATH") defaultPATH) ∧
    mergedEnv hostEnv serverEnv host "SHELL" =
      some (jsOr (hostEnv "SHELL") defaultSHELL) ∧
    mergedEnv hostEnv serverEnv host "HOME" =
      some (jsOr (hostEnv "HOME") host.homedir) ∧
    mergedEnv hostEnv serverEnv host "USER" =
      some (jsOr (hostEnv "USER") host.username) := by
  refine ⟨?_, rfl, rfl, rfl, rfl⟩
  simp [mergedEnv, setEnvKey, spreadEnv, h1, h2, h3, h4]

theorem env_merge_overlay_witness :
    mergedEnv hostEnvFixture serverEnvFixture hostInfoFixture "FOO" =
      (match serverEnvFixture "FOO" with
       | some v => some v
       | none => hostEnvFixture "FOO") ∧
    mergedEnv hostEnvFixture serverEnvFixture hostInfoFixture "PATH" =
      some (jsOr (hostEnvFixture "PATH") defaultPATH) ∧
    mergedEnv hostEnvFixture serverEnvFixture hostInfoFixture "SHELL" =
      some (jsOr (hostEnvFixture "SHELL") defaultSHELL) ∧
    mergedEnv hostEnvFixture serverEnvFixture hostInfoFixture "HOME" =
      some (jsOr (hostEnvFixture "HOME") hostInfoFixture.homedir) ∧
    mergedEnv hostEnvFixture serverEnvFixture hostInfoFixture "USER" =
      some (jsOr (hostEnvFixture "USER") hostInfoFixture.username) :=
  env_merge_overlay hostEnvFixture serverEnvFixture hostInfoFixture "FOO"
    (by decide) (by decide) (by decide) (by decide)

/-! ## C9 — fabricated placeholder tool -/

theorem mem_foldl_tools (l : List (String × MCPServer)) (acc : List MCPTool)
    (t : MCPTool)
    (h : t ∈ acc ∨ ∃ p, p ∈ l ∧ p.2.status = Status.connected ∧ t ∈ p.2.tools) :
    t ∈ l.foldl
      (fun acc p => if p.2.status = Status.connected then acc ++ p.2.tools else acc)
      acc := by
  induction l generalizing acc with
  | nil =>
    rcases h with h | ⟨p, hp, _, _⟩
    · exact h
    · simp at hp
  | cons q l ih =>
    show t ∈ l.foldl _ (if q.2.status = Status.connected then acc ++ q.2.tools else acc)
    apply ih
    rcases h with h | ⟨p, hp, hst, htl⟩
    · left
      split
      · exact List.mem_append_left _ h
      · exact h
    · rcases List.mem_cons.mp hp with hq | hp'
      · subst hq
        left
        rw [if_pos hst]
        exact List.mem_append_right _ htl
      · exact Or.inr ⟨p, hp', hst, htl⟩

theorem mem_getAvailableTools_of (st : ServiceState) (k : String) (srv : MCPServer)
    (t : MCPTool) (h : lookupA k st.servers = some srv)
    (hst : srv.status = Status.connected) (ht : t ∈ srv.tools) :
    t ∈ getAvailableTools st :=
  mem_foldl_tools st.servers [] t
    (Or.inr ⟨(k, srv), lookupA_mem k _ srv h, hst, ht⟩)

/-- C9: a configuration entry declaring a command but no static tools is
loaded with exactly one fabricated placeholder tool named `<id>_tool` carrying
the empty object schema; while such a provider is connected, the tool-listing
operation offers that placeholder; and a discovery round that returns a tools
array replaces the provider's tool list wholesale with the discovered tools
(dropping the placeholder). -/
theorem placeholder_tool_fabricated (id : String) (cfg : RawServerConfig)
    (server : MCPServer) (st : ServiceState)
    (htools : cfg.tools.getD [] = [])
    (hcmd : truthyStr cfg.command = true)
    (hparse : parseServerConfig id cfg = some server) :
    server.tools = [placeholderTool id (jsOr cfg.name id)] ∧
    (placeholderTool id (jsOr cfg.name id)).inputSchema = emptyObjectSchema ∧
    (placeholderTool id (jsOr cfg.name id)).name = id ++ "_tool" ∧
    (lookupA id st.servers = some { server with status := Status.connected } →
      placeholderTool id (jsOr cfg.name id) ∈ getAvailableTools st) ∧
    (∀ ts, (applyDiscoveredTools server (some ts)).tools =
      ts.map (parseDiscoveredTool server.name)) := by
  have hTools : server.tools = [placeholderTool id (jsOr cfg.name id)] := by
    simp only [parseServerConfig, htools] at hparse
    rw [if_pos ⟨rfl, hcmd⟩] at hparse
    cases hparse
    rfl
  refine ⟨hTools, rfl, rfl, ?_, fun ts => rfl⟩
  intro hlook
  exact mem_getAvailableTools_of st id _ _ hlook rfl
    (by rw [show ({ server with status := Status.connected } : MCPServer).tools =
          server.tools from rfl, hTools]; simp)

theorem placeholder_tool_fabricated_witness :
    server9.tools = [placeholderTool "fs" (jsOr none "fs")] ∧
    (placeholderTool "fs" (jsOr none "fs")).inputSchema = emptyObjectSchema ∧
    (placeholderTool "fs" (jsOr none "fs")).name = "fs" ++ "_tool" ∧
    placeholderTool "fs" (jsOr none "fs") ∈ getAvailableTools st9 ∧
    (applyDiscoveredTools server9 (some [])).tools = [] := by
  obtain ⟨h1, h2, h3, h4, h5⟩ :=
    placeholder_tool_fabricated "fs" cfg9 server9 st9 (by rfl) (by rfl) (by rfl)
  exact ⟨h1, h2, h3, h4 (by rfl), h5 []⟩

/-! ## C10 — demo providers connect without a transport

`connectStdioServer` (lines 204-212) marks a command-less provider connected
and resolves true without spawning anything or registering a connection, and
`sendMessage` (lines 347-353) then throws `No connection found` when a tool is
executed against it. -/

/-- C10: for a stdio provider configured without a command, connect sets the
status to connected and returns success with no transport-opening action and
the connection table untouched; a subsequent execute_tool naming one of its
tools passes the connected-status and tool-presence guards but fails with the
no-connection-found error, again with no transport I/O. -/
theorem demo_connect_then_no_connection (st : ServiceState) (serverId : String)
    (server : MCPServer) (outcome : SpawnOutcome) (tc : MCPToolCall) (now : Nat)
    (hs : lookupA serverId st.servers = some server)
    (hid : server.id = serverId)
    (ht : server.transport = "stdio")
    (hcmd : truthyStr server.command = false)
    (hconn : lookupA serverId st.connections = none)
    (htool : tc.name ∈ server.tools.map (fun t => t.name)) :
    connectToServer st serverId outcome =
      .ok (setServerStatus st serverId .connected, true, []) ∧
    (setServerStatus st serverId .connected).connections = st.connections ∧
    (executeTool (setServerStatus st serverId .connected) serverId tc now).errorOut =
      some (.noConnectionFound serverId) ∧
    (executeTool (setServerStatus st serverId .connected) serverId tc now).actions =
      [] := by
  have h2 : connectStdioServer st server outcome =
      (setServerStatus st serverId .connected, true, []) := by
    rw [← hid]
    simp [connectStdioServer, hcmd]
  have h1 : connectToServer st serverId outcome =
      .ok (setServerStatus st serverId .connected, true, []) := by
    simp [connectToServer, hs, ht, h2]
  have hlook : lookupA serverId (setServerStatus st serverId .connected).servers =
      some (updStatus Status.connected server) := by
    rw [lookupA_setServerStatus]
    simp [hs]
  have hfind : (server.tools.find? (fun t => t.name = tc.name)).isSome := by
    rw [List.find?_isSome]
    simp only [List.mem_map] at htool
    obtain ⟨t, htm, htn⟩ := htool
    exact ⟨t, htm, by simp [htn]⟩
  cases hfq : server.tools.find? (fun t => t.name = tc.name) with
  | none => rw [hfq] at hfind; simp at hfind
  | some t0 =>
    have hexec : executeTool (setServerStatus st serverId .connected) serverId tc now =
        sendMessage (setServerStatus st serverId .connected) serverId
          (buildToolCallMessage now tc) now := by
      unfold executeTool
      rw [hlook]
      have : (updStatus Status.connected server).tools = server.tools := rfl
      simp [updStatus, hfq, this]
    have hsend : sendMessage (setServerStatus st serverId .connected) serverId
        (buildToolCallMessage now tc) now =
        ⟨setServerStatus st serverId .connected, [],
         some (.noConnectionFound serverId)⟩ := by
      unfold sendMessage
      rw [show (setServerStatus st serverId .connected).connections =
          st.connections from rfl, hconn]
    exact ⟨h1, rfl, by rw [hexec, hsend], by rw [hexec, hsend]⟩

theorem demo_connect_then_no_connection_witness :
    connectToServer stExamples "filesystem" (.ok 1) =
      .ok (setServerStatus stExamples "filesystem" .connected, true, []) ∧
    (setServerStatus stExamples "filesystem" .connected).connections =
      stExamples.connections ∧
    (executeTool (setServerStatus stExamples "filesystem" .connected) "filesystem"
        ⟨"call-1", "read_file", []⟩ 0).errorOut =
      some (.noConnectionFound "filesystem") ∧
    (executeTool (setServerStatus stExamples "filesystem" .connected) "filesystem"
        ⟨"call-1", "read_file", []⟩ 0).actions = [] :=
  demo_connect_then_no_connection stExamples "filesystem" filesystemServer (.ok 1)
    ⟨"call-1", "read_file", []⟩ 0 (by rfl) (by rfl) (by rfl) (by rfl) (by rfl)
    (by decide)

end MCP
